import Mathlib

set_option maxRecDepth 100000

namespace Sec

/-- JSON values, as produced by JavaScript's JSON.parse on the subset of
documents this system handles (null, booleans, integer numbers, strings,
arrays, objects as ordered key/value lists). -/
inductive Json : Type where
  | null : Json
  | bool : Bool → Json
  | num : Int → Json
  | str : String → Json
  | arr : List Json → Json
  | obj : List (String × Json) → Json

/-- JavaScript truthiness of a JSON value: null, false, 0 and the empty
string are falsy; every object and array is truthy. -/
def truthy : Json → Bool
  | Json.null => false
  | Json.bool b => b
  | Json.num n => n ≠ 0
  | Json.str s => s ≠ ""
  | Json.arr _ => true
  | Json.obj _ => true

/-- Truthiness of an optional JSON value; `none` models JavaScript
`undefined`, which is falsy. -/
def truthyO : Option Json → Bool
  | none => false
  | some v => truthy v

/-- Member lookup on a JSON value: on an object, the first binding for the
key; on every other value, `undefined` (modelled as `none`). -/
def jsGet : Json → String → Option Json
  | Json.obj kvs, k =>
    match kvs.find? (fun kv => kv.1 = k) with
    | some kv => some kv.2
    | none => none
  | _, _ => none

/-- Optional-chaining member access `x?.k`: propagates absence. -/
def jsOpt (x : Option Json) (k : String) : Option Json :=
  match x with
  | some v => jsGet v k
  | none => none

/-- Chained optional member access along a path of keys. -/
def jsPath (j : Json) (ks : List String) : Option Json :=
  ks.foldl jsOpt (some j)

/-- Whitespace characters skipped by the JSON parser. -/
def isWsChar (c : Char) : Bool :=
  [' ', '\t', '\n', '\r'].contains c

/-- Skip leading whitespace. -/
def skipWs (l : List Char) : List Char := l.dropWhile isWsChar

/-- Decode a single JSON string escape character (the quote, backslash and
slash escape to themselves; the letter escapes to their control characters;
unicode escapes are outside the modelled subset). -/
def escChar (e : Char) : Option Char :=
  if e = '"' ∨ e = '\\' ∨ e = '/' then some e
  else if e = 'n' then some '\n'
  else if e = 't' then some '\t'
  else if e = 'r' then some '\r'
  else if e = 'b' then some (Char.ofNat 8)
  else if e = 'f' then some (Char.ofNat 12)
  else none

/-- Parse the body of a JSON string literal (the opening quote already
consumed), returning the decoded characters and the remaining input. -/
def strBody : List Char → Option (List Char × List Char)
  | [] => none
  | '"' :: rest => some ([], rest)
  | '\\' :: rest =>
    match rest with
    | [] => none
    | e :: rest2 =>
      match escChar e, strBody rest2 with
      | some c, some (s, r) => some (c :: s, r)
      | _, _ => none
  | c :: rest =>
    match strBody rest with
    | some (s, r) => some (c :: s, r)
    | none => none

/-- Accumulate a run of decimal digits into a natural number. -/
def digitsAux : List Char → Nat → Nat × List Char
  | [], acc => (acc, [])
  | c :: rest, acc =>
    if c.isDigit then digitsAux rest (acc * 10 + (c.toNat - 48))
    else (acc, c :: rest)

/-- Parse one or more decimal digits. -/
def parseNat (l : List Char) : Option (Nat × List Char) :=
  match l with
  | c :: _ => if c.isDigit then some (digitsAux l 0) else none
  | [] => none

/-- After an integer literal, reject a fraction or exponent marker (the
embedding restricts JSON numbers to integers). -/
def numOkAfter : List Char → Bool
  | c :: _ => !(c == '.' || c == 'e' || c == 'E')
  | [] => true

mutual

/-- Fuel-indexed recursive-descent JSON value parser. -/
def parseVal : Nat → List Char → Option (Json × List Char)
  | 0, _ => none
  | Nat.succ fuel, input =>
    match skipWs input with
    | 'n' :: 'u' :: 'l' :: 'l' :: r => some (Json.null, r)
    | 't' :: 'r' :: 'u' :: 'e' :: r => some (Json.bool true, r)
    | 'f' :: 'a' :: 'l' :: 's' :: 'e' :: r => some (Json.bool false, r)
    | '"' :: r =>
      match strBody r with
      | some (s, r2) => some (Json.str (String.mk s), r2)
      | none => none
    | '[' :: r =>
      match skipWs r with
      | ']' :: r2 => some (Json.arr [], r2)
      | r2 => parseArrElems fuel [] r2
    | '\x7b' :: r =>
      match skipWs r with
      | '\x7d' :: r2 => some (Json.obj [], r2)
      | r2 => parseObjMembers fuel [] r2
    | '-' :: r =>
      match parseNat r with
      | some (n, r2) => if numOkAfter r2 then some (Json.num (-(n : Int)), r2) else none
      | none => none
    | l =>
      match parseNat l with
      | some (n, r2) => if numOkAfter r2 then some (Json.num (n : Int), r2) else none
      | none => none

/-- Parse the comma-separated elements of a JSON array. -/
def parseArrElems : Nat → List Json → List Char → Option (Json × List Char)
  | 0, _, _ => none
  | Nat.succ fuel, acc, input =>
    match parseVal fuel input with
    | none => none
    | some (v, r) =>
      match skipWs r with
      | ',' :: r2 => parseArrElems fuel (v :: acc) r2
      | ']' :: r2 => some (Json.arr (acc.reverse ++ [v]), r2)
      | _ => none

/-- Parse the comma-separated members of a JSON object. -/
def parseObjMembers : Nat → List (String × Json) → List Char → Option (Json × List Char)
  | 0, _, _ => none
  | Nat.succ fuel, acc, input =>
    match skipWs input with
    | '"' :: r =>
      match strBody r with
      | some (k, r2) =>
        match skipWs r2 with
        | ':' :: r3 =>
          match parseVal fuel r3 with
          | some (v, r4) =>
            match skipWs r4 with
            | ',' :: r5 => parseObjMembers fuel ((String.mk k, v) :: acc) r5
            | '\x7d' :: r5 => some (Json.obj (acc.reverse ++ [(String.mk k, v)]), r5)
            | _ => none
          | none => none
        | _ => none
      | none => none
    | _ => none

end

/-- JSON.parse over a character list: parse one value and require that only
whitespace remains. -/
def jparseL (l : List Char) : Option Json :=
  match parseVal (2 * l.length + 8) l with
  | some (v, r) => if (skipWs r).isEmpty then some v else none
  | none => none

/-- JSON.parse over a string. -/
def jparse (s : String) : Option Json := jparseL s.toList

/-- The literal matched at the start of both SIGI_STATE extraction patterns. -/
def sigiLit : List Char := "<script id=\"SIGI_STATE\"".toList

/-- The closing literal ending the lazily captured script content. -/
def closeLit : List Char := "</script>".toList

/-- The full opening literal required by the user-info route's pattern,
which additionally fixes the type attribute. -/
def jsonTypeLit : List Char := "<script id=\"SIGI_STATE\" type=\"application/json\">".toList

/-- Drop an expected literal from the front of the input; `none` when the
input does not start with it. -/
def dropLit : List Char → List Char → Option (List Char)
  | [], l => some l
  | _ :: _, [] => none
  | p :: ps, c :: cs => if c = p then dropLit ps cs else none

/-- Boolean test that the input starts with the given literal. -/
def startsW (p l : List Char) : Bool := (dropLit p l).isSome

/-- Lazy capture of the live-status route's pattern: the shortest run of
characters, none of which may be a line terminator (the pattern's dot does
not match newlines), ending at the closing literal. -/
def lazyCapNoNl : List Char → Option (List Char)
  | [] => none
  | c :: cs =>
    if startsW closeLit (c :: cs) then some []
    else if c = '\n' ∨ c = '\r' then none
    else
      match lazyCapNoNl cs with
      | some s => some (c :: s)
      | none => none

/-- Lazy capture of the user-info route's pattern: the shortest run of
arbitrary characters (its character class crosses newlines) ending at the
closing literal. -/
def lazyCapAll : List Char → Option (List Char)
  | [] => none
  | c :: cs =>
    if startsW closeLit (c :: cs) then some []
    else
      match lazyCapAll cs with
      | some s => some (c :: s)
      | none => none

/-- Attempt the live-status route's pattern at the start of the input:
the SIGI_STATE opening literal, a greedy run of non-gt characters closed by
a gt sign, then the lazy newline-free capture. -/
def matchAt0 (l : List Char) : Option (List Char) :=
  match dropLit sigiLit l with
  | none => none
  | some r1 =>
    match r1.dropWhile (fun c => c != '>') with
    | '>' :: r2 => lazyCapNoNl r2
    | _ => none

/-- Attempt the user-info route's pattern at the start of the input: the
full opening literal with the type attribute, then the lazy capture. -/
def matchAt1 (l : List Char) : Option (List Char) :=
  match dropLit jsonTypeLit l with
  | none => none
  | some r => lazyCapAll r

/-- First-match semantics of String.prototype.match: try the pattern at
each start position, left to right, returning the first capture. -/
def scanR (attempt : List Char → Option (List Char)) : List Char → Option (List Char)
  | [] => attempt []
  | c :: t =>
    match attempt (c :: t) with
    | some r => some r
    | none => scanR attempt t

/-- Capture group extracted by the live-status route's regular expression. -/
def extract0 (html : List Char) : Option (List Char) := scanR matchAt0 html

/-- Capture group extracted by the user-info route's regular expression. -/
def extract1 (html : List Char) : Option (List Char) := scanR matchAt1 html

/-- JavaScript String.prototype.trim restricted to the ASCII whitespace
this system encounters. -/
def jsTrim (s : String) : String :=
  String.mk (((s.toList.dropWhile isWsChar).reverse.dropWhile isWsChar).reverse)

/-- The replace of a leading at-sign by the empty string: strips at most one
leading at-sign. -/
def stripAt (s : String) : String :=
  match s.toList with
  | '@' :: rest => String.mk rest
  | _ => s

/-- Response body of the live-status route: username, live flag, and the
raw status and roomId values (absent models both null and undefined). -/
structure LiveResp where
  username : String
  live : Bool
  status : Option Json
  roomId : Option Json

/-- Path walked to the live status code. -/
def liveStatusPath : List String := ["LiveRoom", "liveRoomUserInfo", "liveRoom", "status"]

/-- Path walked to the live room identifier. -/
def liveRoomIdPath : List String := ["LiveRoom", "liveRoomUserInfo", "liveRoom", "roomId"]

/-- Strict equality of a possibly absent value against the numeric live
sentinel 2. -/
def isNum2 : Option Json → Bool
  | some (Json.num n) => n = 2
  | _ => false

/-- Core of the live-status route, from extraction of the state blob to the
response record: extraction failure, an empty capture, and a parse failure
all degrade to a not-live response with null status and roomId. -/
def checkLiveCore (user : String) (html : String) : LiveResp :=
  match extract0 html.toList with
  | some cap =>
    if cap.isEmpty then
      { username := user, live := false, status := none, roomId := none }
    else
      match jparseL cap with
      | some data =>
        let status := jsPath data liveStatusPath
        { username := user, live := isNum2 status, status := status,
          roomId := jsPath data liveRoomIdPath }
      | none => { username := user, live := false, status := none, roomId := none }
  | none => { username := user, live := false, status := none, roomId := none }

/-- Outcome of the upstream page fetch as seen by a route handler. -/
inductive FetchSim where
  | throws (msg : String)
  | page (html : String)

/-- Responses the live-status route can produce. -/
inductive CheckLiveOut where
  | badRequest
  | ok (r : LiveResp)
  | serverError (msg : String)

/-- The live-status route handler: username validation, then an
unconditional upstream fetch (this route keeps no cache); the boolean
records whether the upstream fetch was performed. -/
def checkLiveHandler (usernameQ : Option String) (outcome : FetchSim) :
    CheckLiveOut × Bool :=
  match usernameQ with
  | none => (CheckLiveOut.badRequest, false)
  | some uname =>
    if jsTrim uname = "" then (CheckLiveOut.badRequest, false)
    else
      let user := jsTrim (stripAt uname)
      match outcome with
      | FetchSim.throws m => (CheckLiveOut.serverError m, true)
      | FetchSim.page html => (CheckLiveOut.ok (checkLiveCore user html), true)

/-- Lookup in a keyed store (a JavaScript Map or plain object): the first
binding for the key. -/
def mapGet (m : List (String × β)) (k : String) : Option β :=
  match m.find? (fun kv => kv.1 = k) with
  | some kv => some kv.2
  | none => none

/-- Update of a keyed store: replace the binding in place, or append a new
one. -/
def mapSet : List (String × β) → String → β → List (String × β)
  | [], k, v => [(k, v)]
  | (k', v') :: t, k, v =>
    if k' = k then (k, v) :: t else (k', v') :: mapSet t k v

/-- The user-info route's cache time-to-live: six hours in milliseconds. -/
def TTL_MS : Int := 6 * 60 * 60 * 1000

/-- A cache entry: the stored value and the timestamp it was fetched at. -/
structure CacheEntry (α : Type) where
  ts : Int
  data : α

/-- The cache read used by the user-info route: a hit whose age is strictly
below the time-to-live yields its value; a stale or absent entry is a miss
(the stale entry is not removed). -/
def cacheFresh (c : List (String × CacheEntry α)) (k : String) (now : Int) :
    Option α :=
  match mapGet c k with
  | some e => if now - e.ts < TTL_MS then some e.data else none
  | none => none

mutual

/-- JavaScript String coercion of a JSON value (object coercion fixed to
the standard tag; array coercion joins the coerced elements with commas). -/
def jsToString : Json → String
  | Json.null => "null"
  | Json.bool b => if b then "true" else "false"
  | Json.num n => toString n
  | Json.str s => s
  | Json.arr xs => jsToStringList xs
  | Json.obj _ => "[object Object]"

/-- Comma-joined String coercion of the elements of a JSON array. -/
def jsToStringList : List Json → String
  | [] => ""
  | [x] => jsToString x
  | x :: y :: xs => jsToString x ++ "," ++ jsToStringList (y :: xs)

end

/-- JavaScript logical-or over possibly absent values: the first operand if
truthy, the second otherwise. -/
def jsOr (a b : Option Json) : Option Json :=
  if truthyO a then a else b

/-- JavaScript String.prototype.toLowerCase on the ASCII range this system
compares. -/
def lowerStr (s : String) : String := String.mk (s.toList.map Char.toLower)

/-- The user-table scan test: the entry's declared uniqueId, when it is a
string, compared case-insensitively against the account name. -/
def matchesUnique (u : Json) (uname : String) : Bool :=
  match jsGet u "uniqueId" with
  | some (Json.str s) => lowerStr s = lowerStr uname
  | _ => false

/-- Linear scan over the entries of the user table (key iteration order),
stopping at the first entry whose uniqueId matches. -/
def objKeysScan : Json → String → Option Json
  | Json.obj kvs, uname => (kvs.find? (fun kv => matchesUnique kv.2 uname)).map (fun kv => kv.2)
  | _, _ => none

/-- Fields recovered from a matching user entry: id or idStr, and region or
country, each by truthiness-first choice. -/
def userFieldsOf (dv : Json) : Option Json × Option Json :=
  (jsOr (jsGet dv "id") (jsGet dv "idStr"),
   jsOr (jsGet dv "region") (jsGet dv "country"))

/-- Result of the fallback scan branch of the user resolution. -/
def scanResult (mv : Json) (uname : String) : Option Json × Option Json :=
  match objKeysScan mv uname with
  | some u => userFieldsOf u
  | none => (none, none)

/-- Resolution of userId and country from the parsed state document: the
user table from either module path, then direct lookup by plain or
at-prefixed name, then the case-insensitive uniqueId scan. -/
def resolveUserFields (data : Json) (uname : String) : Option Json × Option Json :=
  match jsOr (jsPath data ["UserModule", "users"]) (jsPath data ["UserPage", "users"]) with
  | none => (none, none)
  | some mv =>
    if truthy mv then
      match jsOr (jsGet mv uname) (jsGet mv ("@" ++ uname)) with
      | some dv => if truthy dv then userFieldsOf dv else scanResult mv uname
      | none => scanResult mv uname
    else (none, none)

/-- Output coercion applied to userId and country: a truthy value is
stringified, anything else becomes null. -/
def coerceOut : Option Json → Option String
  | some v => if truthy v then some (jsToString v) else none
  | none => none

/-- Response payload of the user-info route. -/
structure UserInfoData where
  username : String
  userId : Option String
  country : Option String
  source : String

/-- Outcome of the user-info route's upstream fetch, including the response
status used when the response is not ok. -/
inductive FetchSim2 where
  | throws (msg : String)
  | resp (ok : Bool) (status : Int) (html : String)

/-- Responses the user-info route can produce. -/
inductive UserInfoOut where
  | noContent
  | badRequest
  | upstream (status : Int)
  | ok (d : UserInfoData) (cached : Bool)
  | serverError (detail : String)

/-- Extraction plus parse as performed by the user-info route: a nonempty
capture parsed leniently, anything else degrading to no document. -/
def userInfoParsed (html : String) : Option Json :=
  match extract1 html.toList with
  | some cap => if cap.isEmpty then none else jparseL cap
  | none => none

/-- The payload computed by the user-info route from a fetched page: the
(case-preserving) normalized username, the coerced resolved userId and
country, and the fixed source tag. -/
def userInfoDataOf (username html : String) : UserInfoData :=
  let fields :=
    match userInfoParsed html with
    | some data => resolveUserFields data username
    | none => (none, none)
  { username := username, userId := coerceOut fields.1,
    country := coerceOut fields.2, source := "SIGI_STATE" }

/-- The fetch-and-resolve tail of the user-info route, reached on a cache
miss or a stale entry. -/
def userInfoFetch (cache : List (String × CacheEntry UserInfoData))
    (key username : String) (now : Int) (fetchRes : FetchSim2) :
    UserInfoOut × List (String × CacheEntry UserInfoData) × Bool :=
  match fetchRes with
  | FetchSim2.throws m => (UserInfoOut.serverError m, cache, true)
  | FetchSim2.resp ok st html =>
    if ok then
      (UserInfoOut.ok (userInfoDataOf username html) false,
       mapSet cache key { ts := now, data := userInfoDataOf username html }, true)
    else (UserInfoOut.upstream st, cache, true)

/-- The user-info route handler: method check, normalization, cache
consultation, upstream fetch on miss or stale, resolution, store, respond.
Returns the response, the updated cache, and whether the upstream fetch was
performed. -/
def userInfoHandler (cache : List (String × CacheEntry UserInfoData))
    (method : String) (usernameQ : Option String) (now : Int)
    (fetchRes : FetchSim2) :
    UserInfoOut × List (String × CacheEntry UserInfoData) × Bool :=
  if method = "OPTIONS" then (UserInfoOut.noContent, cache, false)
  else
    let username := stripAt (jsTrim (usernameQ.getD ""))
    if username = "" then (UserInfoOut.badRequest, cache, false)
    else
      let key := lowerStr username
      match mapGet cache key with
      | some hit =>
        if now - hit.ts < TTL_MS then (UserInfoOut.ok hit.data true, cache, false)
        else userInfoFetch cache key username now fetchRes
      | none => userInfoFetch cache key username now fetchRes

/-- Quality tiers in the fixed precedence order of the capture route. -/
def qualityOrder : List String := ["uhd", "hd", "sd", "ld"]

/-- The flv URL of a tier's main variant. -/
def flvOf (streams : Json) (q : String) : Option Json :=
  jsOpt (jsOpt (jsGet streams q) "main") "flv"

/-- The selection condition for a tier: the tier's variant, its main entry
and its flv URL must all be present and truthy (a non-empty URL). -/
def variantCond (streams : Json) (q : String) : Bool :=
  truthyO (jsGet streams q) &&
  truthyO (jsOpt (jsGet streams q) "main") &&
  truthyO (flvOf streams q)

/-- Quality selection: the first tier in precedence order whose selection
condition holds yields its flv URL. -/
def selectStream (streams : Json) : Option (String × Json) :=
  qualityOrder.findSome? fun q =>
    if variantCond streams q then (flvOf streams q).map (fun f => (q, f)) else none

/-- Path walked to the raw (doubly encoded) stream manifest. -/
def streamDataPath : List String :=
  ["LiveRoom", "liveRoomUserInfo", "liveRoom", "streamData", "pull_data", "stream_data"]

/-- JSON.parse applied to an arbitrary value, which JavaScript first
coerces to a string: strings are parsed, numbers and booleans re-parse to
themselves, and object or array coercions are modelled as failures. -/
def jsonParseCoerced : Json → Option Json
  | Json.str s => jparse s
  | Json.num n => some (Json.num n)
  | Json.bool b => some (Json.bool b)
  | _ => none

/-- Outcome of one external ffmpeg invocation. -/
inductive FfmpegOutcome where
  | exit (code : Int)
  | spawnErr (msg : String)
deriving DecidableEq

/-- The error message, if any, with which the promise wrapping an ffmpeg
invocation rejects: a nonzero exit code or a spawn error. -/
def ffmpegFails : FfmpegOutcome → Option String
  | FfmpegOutcome.exit c => if c = 0 then none else some ("ffmpeg exited with code " ++ toString c)
  | FfmpegOutcome.spawnErr m => some m

/-- Externally visible side effects of the capture route. -/
inductive Effect where
  | ensureDir (d : String)
  | fetchLive (user : String)
  | ffmpegRun (args : List String)
  | removeFile (p : String)
deriving DecidableEq

/-- Responses the capture route can produce, one per exit point. -/
inductive RecordOut where
  | methodNotAllowed
  | badRequest
  | sigiMissing
  | sigiParseFailed
  | noStreamData
  | streamParseFailed
  | noFlv
  | downloadFailed (msg : String)
  | audioFailed (msg : String)
  | thrown (msg : String)
  | success (flvUrl : Json) (videoPath audioPath : String)

/-- The JSON body serialized for each capture-route response. -/
def recordFields : RecordOut → List (String × Json)
  | RecordOut.methodNotAllowed => [("error", Json.str "Method not allowed")]
  | RecordOut.badRequest => [("error", Json.str "Missing or invalid username")]
  | RecordOut.sigiMissing => [("error", Json.str "SIGI_STATE missing")]
  | RecordOut.sigiParseFailed => [("error", Json.str "Failed to parse SIGI_STATE")]
  | RecordOut.noStreamData => [("error", Json.str "No stream data found")]
  | RecordOut.streamParseFailed => [("error", Json.str "Failed to parse stream data")]
  | RecordOut.noFlv => [("error", Json.str "No FLV stream available")]
  | RecordOut.downloadFailed m => [("error", Json.str ("Download failed: " ++ m))]
  | RecordOut.audioFailed m => [("error", Json.str ("Audio extraction failed: " ++ m))]
  | RecordOut.thrown m => [("error", Json.str m)]
  | RecordOut.success f v a =>
    [("message", Json.str "Recording complete"), ("flvUrl", f),
     ("videoPath", Json.str v), ("audioPath", Json.str a)]

/-- Arguments of the stream-download ffmpeg invocation. -/
def ffmpegArgsDownload (flv : Json) (videoPath : String) : List String :=
  ["-y", "-i", jsToString flv, "-c", "copy", videoPath]

/-- Arguments of the audio-extraction ffmpeg invocation. -/
def ffmpegArgsAudio (videoPath audioPath : String) : List String :=
  ["-y", "-i", videoPath, "-vn", "-acodec", "pcm_s16le", "-ar", "44100", "-ac", "2", audioPath]

/-- Inputs determining one run of the capture route: request data, working
directory, directory existence, the fetched page, the capture timestamp and
the outcome of each ffmpeg stage. -/
structure RecordEnv where
  method : String
  usernameQ : Option String
  cwd : String
  dirExists : String → Bool
  fetch : FetchSim
  now : Int
  ffDownload : FfmpegOutcome
  ffAudio : FfmpegOutcome

/-- The capture route handler: validation, directory creation, page fetch,
extraction, double parse, quality selection, then the two-stage ffmpeg
pipeline; returns the response and the ordered list of performed side
effects. A member access on an undefined or null manifest raises a type
error absorbed by the outer catch. -/
def record (env : RecordEnv) : RecordOut × List Effect :=
  if env.method ≠ "POST" then (RecordOut.methodNotAllowed, [])
  else
    match env.usernameQ with
    | none => (RecordOut.badRequest, [])
    | some uname =>
      if jsTrim uname = "" then (RecordOut.badRequest, [])
      else
        let user := jsTrim (stripAt uname)
        let recordingsDir := env.cwd ++ "/recordings"
        let audioDir := env.cwd ++ "/audio"
        let dirEffs :=
          (if env.dirExists recordingsDir then [] else [Effect.ensureDir recordingsDir]) ++
          (if env.dirExists audioDir then [] else [Effect.ensureDir audioDir])
        let effs1 := dirEffs ++ [Effect.fetchLive user]
        match env.fetch with
        | FetchSim.throws m => (RecordOut.thrown m, effs1)
        | FetchSim.page html =>
          match extract0 html.toList with
          | none => (RecordOut.sigiMissing, effs1)
          | some cap =>
            if cap = [] then (RecordOut.sigiMissing, effs1)
            else
              match jparseL cap with
              | none => (RecordOut.sigiParseFailed, effs1)
              | some data =>
                match jsPath data streamDataPath with
                | none => (RecordOut.noStreamData, effs1)
                | some raw =>
                  if truthy raw then
                    match jsonParseCoerced raw with
                    | none => (RecordOut.streamParseFailed, effs1)
                    | some Json.null => (RecordOut.streamParseFailed, effs1)
                    | some parsed =>
                      match jsGet parsed "data" with
                      | none => (RecordOut.thrown "TypeError", effs1)
                      | some Json.null => (RecordOut.thrown "TypeError", effs1)
                      | some streams =>
                        match selectStream streams with
                        | none => (RecordOut.noFlv, effs1)
                        | some (_, flv) =>
                          let videoPath :=
                            recordingsDir ++ "/" ++ user ++ "_" ++ toString env.now ++ ".mp4"
                          let audioPath :=
                            audioDir ++ "/" ++ user ++ "_" ++ toString env.now ++ ".wav"
                          let effs2 := effs1 ++ [Effect.ffmpegRun (ffmpegArgsDownload flv videoPath)]
                          match ffmpegFails env.ffDownload with
                          | some m => (RecordOut.downloadFailed m, effs2)
                          | none =>
                            let effs3 :=
                              effs2 ++ [Effect.ffmpegRun (ffmpegArgsAudio videoPath audioPath)]
                            match ffmpegFails env.ffAudio with
                            | some m => (RecordOut.audioFailed m, effs3)
                            | none => (RecordOut.success flv videoPath audioPath, effs3)
                  else (RecordOut.noStreamData, effs1)

/-- One entry of the in-memory chat log: an ISO timestamp and the raw user
and comment values of the chat event. -/
structure ChatEntry where
  timestamp : String
  user : Option Json
  comment : Option Json

/-- The entry the chat listener pushes for an incoming event: the event's
uniqueId or, when falsy, its nickname. -/
def mkEntry (nowIso : String) (uniqueId nickname comment : Option Json) : ChatEntry :=
  { timestamp := nowIso, user := jsOr uniqueId nickname, comment := comment }

/-- The fixed retention cap of a per-account chat log. -/
def LOG_CAP : Nat := 10000

/-- One append to a chat log: push to the end, then discard the oldest
entry when the cap is exceeded. -/
def appendLog (log : List ChatEntry) (e : ChatEntry) : List ChatEntry :=
  let l := log ++ [e]
  if l.length > LOG_CAP then l.drop 1 else l

/-- The chat listener's handling of one event on the per-account log store:
a missing log is recreated empty, then the entry is appended under the cap. -/
def chatEvent (logs : List (String × List ChatEntry)) (user : String) (e : ChatEntry) :
    List (String × List ChatEntry) :=
  mapSet logs user (appendLog ((mapGet logs user).getD []) e)

/-- Process-wide state of the chat subsystem: the set of accounts with a
registered watcher and the per-account logs. -/
structure ChatState where
  watchers : List String
  logs : List (String × List ChatEntry)

/-- Responses the start-comments route can produce. -/
inductive StartOut where
  | badRequest
  | alreadyRunning
  | connectFailed (msg : String)
  | started
deriving DecidableEq

/-- The start-comments route handler: validation, the existing-watcher
check, the reset of the account's log to empty, then the connection attempt
(`connect = some msg` models a failed connect); only a successful connect
registers the watcher. -/
def startComments (st : ChatState) (usernameQ : Option String) (connect : Option String) :
    StartOut × ChatState :=
  match usernameQ with
  | none => (StartOut.badRequest, st)
  | some uname =>
    if jsTrim uname = "" then (StartOut.badRequest, st)
    else
      let user := jsTrim (stripAt uname)
      if user ∈ st.watchers then (StartOut.alreadyRunning, st)
      else
        let st1 : ChatState := { st with logs := mapSet st.logs user [] }
        match connect with
        | some msg => (StartOut.connectFailed msg, st1)
        | none => (StartOut.started, { st1 with watchers := user :: st1.watchers })

/-- A markup embedding one state document in the standard script element
both routes' patterns target. -/
def wrappedMarkup (content : String) : String :=
  "<script id=\"SIGI_STATE\" type=\"application/json\">" ++ content ++ "</script>"

/-- The opening literal of the user-info pattern minus its first character. -/
def jtTail : List Char := "script id=\"SIGI_STATE\" type=\"application/json\">".toList

/-- The attribute segment standing between the SIGI_STATE literal and the
closing gt sign of the opening tag. -/
def typeTailNoGt : List Char := " type=\"application/json\"".toList

/-- Classification of a capture failure reason string by the pipeline stage
it names: each fixed message, or the download and audio-extraction message
families recognized by their leading text. -/
def stageOfReason (s : String) : String :=
  if s = "SIGI_STATE missing" then "extract"
  else if s = "Failed to parse SIGI_STATE" then "resolve"
  else if s = "No stream data found" then "resolve"
  else if s = "Failed to parse stream data" then "resolve"
  else if s = "No FLV stream available" then "select"
  else if startsW ("Download failed: ".toList) s.toList then "download"
  else if startsW ("Audio extraction failed: ".toList) s.toList then "audio"
  else "other"

/-- The doubly encoded stream manifest of the concrete capture scenario:
a uhd variant with URL u and an hd variant with URL h. -/
def recordNested : String := "\x7b\"data\":\x7b\"uhd\":\x7b\"main\":\x7b\"flv\":\"u\"\x7d\x7d,\"hd\":\x7b\"main\":\x7b\"flv\":\"h\"\x7d\x7d\x7d\x7d"

/-- The concrete state document embedding the manifest of the capture
scenario as a JSON-encoded string field. -/
def recordDoc : String :=
  "\x7b\"LiveRoom\":\x7b\"liveRoomUserInfo\":\x7b\"liveRoom\":\x7b\"streamData\":\x7b\"pull_data\":\x7b\"stream_data\":\"\x7b\\\"data\\\":\x7b\\\"uhd\\\":\x7b\\\"main\\\":\x7b\\\"flv\\\":\\\"u\\\"\x7d\x7d,\\\"hd\\\":\x7b\\\"main\\\":\x7b\\\"flv\\\":\\\"h\\\"\x7d\x7d\x7d\x7d\"\x7d\x7d\x7d\x7d\x7d\x7d"

/-- The concrete live page of the capture scenario. -/
def recordPage : String :=
  "<script id=\"SIGI_STATE\" type=\"application/json\">" ++ recordDoc ++ "</script>"

/-- The manifest of the capture scenario as a parsed JSON value. -/
def streamsC : Json :=
  Json.obj [("uhd", Json.obj [("main", Json.obj [("flv", Json.str "u")])]),
            ("hd", Json.obj [("main", Json.obj [("flv", Json.str "h")])])]

/-- The concrete capture run: a valid POST for alice against the scenario
page at timestamp 5, both ffmpeg stages exiting 0. -/
def recordEnvC : RecordEnv :=
  { method := "POST", usernameQ := some "alice", cwd := ".",
    dirExists := fun _ => true, fetch := FetchSim.page recordPage, now := 5,
    ffDownload := FfmpegOutcome.exit 0, ffAudio := FfmpegOutcome.exit 0 }

/-- The live condition the status query answers: the markup's extracted,
nonempty, parsable state document resolves a status code strictly equal to
the numeric sentinel 2. -/
def liveInMarkup (html : String) : Prop :=
  ∃ cap doc, extract0 html.toList = some cap ∧ cap ≠ [] ∧ jparseL cap = some doc ∧
    jsPath doc liveStatusPath = some (Json.num 2)

/-- A user-info payload carrying only a username slug, as the route
produces it for a page without a state document. -/
def bareUser (u : String) : UserInfoData :=
  { username := u, userId := none, country := none, source := "SIGI_STATE" }

theorem mapGet_mapSet_self {β : Type} (m : List (String × β)) (k : String) (v : β) :
    mapGet (mapSet m k v) k = some v := by
  induction m with
  | nil => simp [mapSet, mapGet]
  | cons kv t ih =>
    obtain ⟨k', v'⟩ := kv
    by_cases h : k' = k
    · subst h
      simp [mapSet, mapGet]
    · simpa [mapSet, mapGet, List.find?_cons, h] using ih

/-- C4: a put followed by a get strictly within the TTL window returns the
stored value as a fresh hit; once the TTL has elapsed the same get is a
miss, yet the stale entry is still physically present (no auto-purge) and
the next put overwrites it in place. -/
theorem claim_C4 {α : Type} (c : List (String × CacheEntry α)) (k : String)
    (v w : α) (t0 t1 t2 t3 : Int)
    (hFresh : t1 - t0 < TTL_MS) (hStale : t2 - t0 ≥ TTL_MS) :
    cacheFresh (mapSet c k ⟨t0, v⟩) k t1 = some v ∧
    cacheFresh (mapSet c k ⟨t0, v⟩) k t2 = none ∧
    mapGet (mapSet c k ⟨t0, v⟩) k = some ⟨t0, v⟩ ∧
    mapGet (mapSet (mapSet c k ⟨t0, v⟩) k ⟨t3, w⟩) k = some ⟨t3, w⟩ := by
  refine ⟨?_, ?_, mapGet_mapSet_self c k ⟨t0, v⟩,
    mapGet_mapSet_self (mapSet c k ⟨t0, v⟩) k (⟨t3, w⟩ : CacheEntry α)⟩
  · simp [cacheFresh, mapGet_mapSet_self, hFresh]
  · simp only [cacheFresh, mapGet_mapSet_self]
    rw [if_neg (by omega)]

/-- Witness for C4 at a concrete key, value and clock readings. -/
theorem claim_C4_witness :
    ((1 : Int) - 0 < TTL_MS) ∧ ((TTL_MS : Int) - 0 ≥ TTL_MS) ∧
    (cacheFresh (mapSet ([] : List (String × CacheEntry Nat)) "k" ⟨0, 7⟩) "k" 1 = some 7 ∧
     cacheFresh (mapSet ([] : List (String × CacheEntry Nat)) "k" ⟨0, 7⟩) "k" TTL_MS = none ∧
     mapGet (mapSet ([] : List (String × CacheEntry Nat)) "k" ⟨0, 7⟩) "k" = some ⟨0, 7⟩ ∧
     mapGet (mapSet (mapSet ([] : List (String × CacheEntry Nat)) "k" ⟨0, 7⟩) "k" ⟨2, 8⟩) "k"
       = some ⟨2, 8⟩) :=
  ⟨by decide, by decide, claim_C4 [] "k" 7 8 0 1 TTL_MS 2 (by decide) (by decide)⟩

theorem appendLog_length_le (log : List ChatEntry) (e : ChatEntry)
    (h : log.length ≤ LOG_CAP) : (appendLog log e).length ≤ LOG_CAP := by
  simp only [appendLog]
  split
  · rename_i hgt
    simp only [gt_iff_lt, List.length_drop, List.length_append, List.length_cons,
      List.length_nil] at hgt ⊢
    omega
  · rename_i hle
    simp only [gt_iff_lt, not_lt, List.length_append, List.length_cons,
      List.length_nil] at hle ⊢
    omega

theorem foldl_appendLog_eq_drop (es : List ChatEntry) :
    es.foldl appendLog [] = es.drop (es.length - LOG_CAP) := by
  have hcap : 1 ≤ LOG_CAP := by simp only [LOG_CAP]; omega
  induction es using List.reverseRecOn with
  | nil => simp
  | append_singleton es e ih =>
    rw [List.foldl_append, List.foldl_cons, List.foldl_nil, ih]
    simp only [appendLog, List.length_append, List.length_cons, List.length_nil]
    by_cases hlt : es.length < LOG_CAP
    · rw [if_neg (by simp only [List.length_drop]; omega)]
      have h0 : es.length - LOG_CAP = 0 := by omega
      have h1 : es.length + (0 + 1) - LOG_CAP = 0 := by omega
      rw [h0, h1, List.drop_zero, List.drop_zero]
    · rw [if_pos (by simp only [List.length_drop]; omega)]
      rw [List.drop_append_of_le_length (by simp only [List.length_drop]; omega)]
      rw [List.drop_drop]
      rw [List.drop_append_of_le_length (by omega)]
      have h2 : es.length - LOG_CAP + 1 = es.length + (0 + 1) - LOG_CAP := by omega
      rw [h2]

theorem mapGet_foldl_chatEvent (user : String) (es : List ChatEntry) :
    ∀ (logs : List (String × List ChatEntry)) (acc : List ChatEntry),
      mapGet logs user = some acc →
      mapGet (es.foldl (fun m x => chatEvent m user x) logs) user
        = some (es.foldl appendLog acc) := by
  induction es with
  | nil =>
    intro logs acc h
    simpa using h
  | cons e t ih =>
    intro logs acc h
    simp only [List.foldl_cons]
    apply ih
    simp [chatEvent, h, mapGet_mapSet_self]

/-- C3: one append keeps the per-account log at or below the 10000-entry
cap, and appending more than 10000 entries one at a time to an account with
no prior log retains exactly the last 10000 entries in original order
(first-in-first-out eviction), their count being exactly the cap. -/
theorem claim_C3 (user : String) (es : List ChatEntry)
    (logs0 : List (String × List ChatEntry)) (log : List ChatEntry) (e : ChatEntry)
    (hInv : log.length ≤ LOG_CAP) (h0 : mapGet logs0 user = none)
    (hN : es.length > LOG_CAP) :
    (appendLog log e).length ≤ LOG_CAP ∧
    mapGet (es.foldl (fun m x => chatEvent m user x) logs0) user
      = some (es.drop (es.length - LOG_CAP)) ∧
    (es.drop (es.length - LOG_CAP)).length = LOG_CAP := by
  refine ⟨appendLog_length_le log e hInv, ?_, ?_⟩
  · cases es with
    | nil => simp [LOG_CAP] at hN
    | cons e0 t =>
      have h1 : mapGet (chatEvent logs0 user e0) user = some (appendLog [] e0) := by
        simp [chatEvent, h0, mapGet_mapSet_self]
      simp only [List.foldl_cons]
      rw [mapGet_foldl_chatEvent user t (chatEvent logs0 user e0) (appendLog [] e0) h1]
      have h3 : t.foldl appendLog (appendLog [] e0) = (e0 :: t).foldl appendLog [] := by
        simp
      rw [h3, foldl_appendLog_eq_drop]
  · simp only [List.length_drop]
    omega

/-- Witness for C3: 10001 identical entries appended for one account. -/
theorem claim_C3_witness :
    (List.replicate (LOG_CAP + 1)
        ({ timestamp := "t", user := none, comment := none } : ChatEntry)).length > LOG_CAP ∧
    mapGet ((List.replicate (LOG_CAP + 1)
          ({ timestamp := "t", user := none, comment := none } : ChatEntry)).foldl
        (fun m x => chatEvent m "bob" x) []) "bob"
      = some ((List.replicate (LOG_CAP + 1)
            ({ timestamp := "t", user := none, comment := none } : ChatEntry)).drop
          ((List.replicate (LOG_CAP + 1)
              ({ timestamp := "t", user := none, comment := none } : ChatEntry)).length - LOG_CAP)) :=
  ⟨by simp, (claim_C3 "bob" _ [] []
      { timestamp := "t", user := none, comment := none }
      (by simp) rfl (by simp)).2.1⟩

/-- C9: when no watcher is registered for the account, the start-comments
route resets that account's log to the empty sequence (discarding prior
entries, before any listener append can occur), whatever the connection
outcome; when a watcher already exists it returns leaving the whole state,
in particular the log, unchanged. -/
theorem claim_C9 (st : ChatState) (uname : String) (connect : Option String)
    (hval : jsTrim uname ≠ "") :
    (jsTrim (stripAt uname) ∈ st.watchers →
      startComments st (some uname) connect = (StartOut.alreadyRunning, st)) ∧
    (jsTrim (stripAt uname) ∉ st.watchers →
      (startComments st (some uname) connect).2.logs
          = mapSet st.logs (jsTrim (stripAt uname)) [] ∧
      mapGet (startComments st (some uname) connect).2.logs (jsTrim (stripAt uname))
          = some []) := by
  constructor
  · intro hmem
    simp [startComments, hval, hmem]
  · intro hmem
    cases connect <;> simp [startComments, hval, hmem, mapGet_mapSet_self]

/-- Witness for C9: an account with a previously retained entry and no
watcher has its log reset to empty. -/
theorem claim_C9_witness :
    jsTrim "bob" ≠ "" ∧
    ((jsTrim (stripAt "bob") ∈ (ChatState.mk []
          [("bob", [{ timestamp := "t", user := none, comment := none }])]).watchers →
      startComments ⟨[], [("bob", [{ timestamp := "t", user := none, comment := none }])]⟩
          (some "bob") none
        = (StartOut.alreadyRunning,
           ⟨[], [("bob", [{ timestamp := "t", user := none, comment := none }])]⟩)) ∧
     (jsTrim (stripAt "bob") ∉ (ChatState.mk []
          [("bob", [{ timestamp := "t", user := none, comment := none }])]).watchers →
      (startComments ⟨[], [("bob", [{ timestamp := "t", user := none, comment := none }])]⟩
          (some "bob") none).2.logs
          = mapSet [("bob", [{ timestamp := "t", user := none, comment := none }])]
              (jsTrim (stripAt "bob")) [] ∧
      mapGet (startComments ⟨[], [("bob", [{ timestamp := "t", user := none, comment := none }])]⟩
          (some "bob") none).2.logs (jsTrim (stripAt "bob"))
          = some [])) :=
  ⟨by decide,
   claim_C9 ⟨[], [("bob", [{ timestamp := "t", user := none, comment := none }])]⟩
     "bob" none (by decide)⟩

theorem variantCond_flv (streams : Json) (q : String) (h : variantCond streams q = true) :
    ∃ f, flvOf streams q = some f ∧ truthy f = true := by
  simp only [variantCond, Bool.and_eq_true] at h
  have h3 := h.2
  cases hf : flvOf streams q with
  | none => rw [hf] at h3; simp [truthyO] at h3
  | some f =>
    rw [hf] at h3
    exact ⟨f, rfl, by simpa [truthyO] using h3⟩

theorem findSome?_select (streams : Json) (l : List String) :
    (l.findSome? fun q =>
        if variantCond streams q then (flvOf streams q).map (fun f => (q, f)) else none)
      = (l.find? (variantCond streams)).bind
          (fun q => (flvOf streams q).map (fun f => (q, f))) := by
  induction l with
  | nil => rfl
  | cons q t ih =>
    rw [List.findSome?_cons, List.find?_cons]
    cases hq : variantCond streams q
    · simpa using ih
    · obtain ⟨f, hf, _⟩ := variantCond_flv streams q hq
      simp [hf]

theorem selectStream_characterization (streams : Json) :
    selectStream streams
      = (qualityOrder.find? (variantCond streams)).bind
          (fun q => (flvOf streams q).map (fun f => (q, f))) := by
  simp only [selectStream]
  exact findSome?_select streams qualityOrder

theorem selectStream_none_iff (streams : Json) :
    selectStream streams = none ↔ ∀ q ∈ qualityOrder, variantCond streams q = false := by
  rw [selectStream_characterization]
  constructor
  · intro h q hq
    by_contra hc
    have hq' : variantCond streams q = true := by
      cases hcv : variantCond streams q
      · exact absurd hcv hc
      · rfl
    cases hfind : List.find? (variantCond streams) qualityOrder with
    | none =>
      have hnone := List.find?_eq_none.mp hfind q hq
      simp [hq'] at hnone
    | some q0 =>
      rw [hfind] at h
      obtain ⟨f, hf, _⟩ := variantCond_flv streams q0 (List.find?_some hfind)
      simp [hf] at h
  · intro h
    have hnone : List.find? (variantCond streams) qualityOrder = none :=
      List.find?_eq_none.mpr (by intro x hx; simp [h x hx])
    simp [hnone]

theorem selectStream_ext (s1 s2 : Json) (hagree : ∀ k, jsGet s1 k = jsGet s2 k) :
    selectStream s1 = selectStream s2 := by
  simp only [selectStream, variantCond, flvOf, hagree]

/-- C2: quality selection equals the first tier in the fixed order uhd, hd,
sd, ld whose variant passes the presence-and-nonempty-flv condition, paired
with that variant's flv URL; it is nothing exactly when no tier qualifies;
it depends on the manifest only through keyed lookup, hence never on the
insertion order of the mapping; and on the scenario manifest holding both a
uhd and an hd variant it selects the uhd URL under either insertion order. -/
theorem claim_C2 (streams s1 s2 : Json) (hagree : ∀ k, jsGet s1 k = jsGet s2 k) :
    (selectStream streams
      = (qualityOrder.find? (variantCond streams)).bind
          (fun q => (flvOf streams q).map (fun f => (q, f)))) ∧
    (selectStream streams = none ↔ ∀ q ∈ qualityOrder, variantCond streams q = false) ∧
    selectStream s1 = selectStream s2 ∧
    selectStream (Json.obj [("uhd", Json.obj [("main", Json.obj [("flv", Json.str "u")])]),
        ("hd", Json.obj [("main", Json.obj [("flv", Json.str "h")])])])
      = some ("uhd", Json.str "u") ∧
    selectStream (Json.obj [("hd", Json.obj [("main", Json.obj [("flv", Json.str "h")])]),
        ("uhd", Json.obj [("main", Json.obj [("flv", Json.str "u")])])])
      = some ("uhd", Json.str "u") :=
  ⟨selectStream_characterization streams, selectStream_none_iff streams,
   selectStream_ext s1 s2 hagree, rfl, rfl⟩

/-- Witness for C2 at the scenario manifest, taking for the two
lookup-agreeing manifests its two insertion orders. -/
theorem claim_C2_witness :
    (selectStream (Json.obj [("uhd", Json.obj [("main", Json.obj [("flv", Json.str "u")])]),
        ("hd", Json.obj [("main", Json.obj [("flv", Json.str "h")])])])
      = (qualityOrder.find? (variantCond (Json.obj
            [("uhd", Json.obj [("main", Json.obj [("flv", Json.str "u")])]),
             ("hd", Json.obj [("main", Json.obj [("flv", Json.str "h")])])]))).bind
          (fun q => (flvOf (Json.obj
            [("uhd", Json.obj [("main", Json.obj [("flv", Json.str "u")])]),
             ("hd", Json.obj [("main", Json.obj [("flv", Json.str "h")])])]) q).map
              (fun f => (q, f)))) ∧
    (selectStream (Json.obj [("uhd", Json.obj [("main", Json.obj [("flv", Json.str "u")])]),
        ("hd", Json.obj [("main", Json.obj [("flv", Json.str "h")])])]) = none ↔
      ∀ q ∈ qualityOrder, variantCond (Json.obj
          [("uhd", Json.obj [("main", Json.obj [("flv", Json.str "u")])]),
           ("hd", Json.obj [("main", Json.obj [("flv", Json.str "h")])])]) q = false) ∧
    selectStream (Json.obj [("uhd", Json.obj [("main", Json.obj [("flv", Json.str "u")])]),
        ("hd", Json.obj [("main", Json.obj [("flv", Json.str "h")])])])
      = selectStream (Json.obj [("hd", Json.obj [("main", Json.obj [("flv", Json.str "h")])]),
          ("uhd", Json.obj [("main", Json.obj [("flv", Json.str "u")])])]) ∧
    selectStream (Json.obj [("uhd", Json.obj [("main", Json.obj [("flv", Json.str "u")])]),
        ("hd", Json.obj [("main", Json.obj [("flv", Json.str "h")])])])
      = some ("uhd", Json.str "u") ∧
    selectStream (Json.obj [("hd", Json.obj [("main", Json.obj [("flv", Json.str "h")])]),
        ("uhd", Json.obj [("main", Json.obj [("flv", Json.str "u")])])])
      = some ("uhd", Json.str "u") :=
  claim_C2
    (Json.obj [("uhd", Json.obj [("main", Json.obj [("flv", Json.str "u")])]),
        ("hd", Json.obj [("main", Json.obj [("flv", Json.str "h")])])])
    (Json.obj [("uhd", Json.obj [("main", Json.obj [("flv", Json.str "u")])]),
        ("hd", Json.obj [("main", Json.obj [("flv", Json.str "h")])])])
    (Json.obj [("hd", Json.obj [("main", Json.obj [("flv", Json.str "h")])]),
        ("uhd", Json.obj [("main", Json.obj [("flv", Json.str "u")])])])
    (by
      intro k
      by_cases h1 : k = "uhd"
      · subst h1; rfl
      · by_cases h2 : k = "hd"
        · subst h2; rfl
        · simp [jsGet, List.find?_cons, Ne.symm h1, Ne.symm h2])

theorem isNum2_iff (s : Option Json) : isNum2 s = true ↔ s = some (Json.num 2) := by
  cases s with
  | none => simp [isNum2]
  | some v => cases v <;> simp [isNum2]

/-- C1: the status query reports live exactly when the extracted state
document parses and resolves a status code equal to 2; when the document is
absent the response is not-live with null status and roomId; and for a
valid username and a fetched page the handler always produces the normal
response (no exception reaches the caller). -/
theorem claim_C1 (user html uname : String) (hval : jsTrim uname ≠ "") :
    ((checkLiveCore user html).live = true ↔ liveInMarkup html) ∧
    (extract0 html.toList = none →
      checkLiveCore user html
        = { username := user, live := false, status := none, roomId := none }) ∧
    (checkLiveHandler (some uname) (FetchSim.page html)).1
      = CheckLiveOut.ok (checkLiveCore (jsTrim (stripAt uname)) html) := by
  refine ⟨?_, ?_, ?_⟩
  · unfold checkLiveCore liveInMarkup
    cases hext : extract0 html.toList with
    | none => simp [hext]
    | some cap =>
      cases cap with
      | nil => simp
      | cons c cs =>
        cases hp : jparseL (c :: cs) with
        | none => simp [hp]
        | some doc => simp [hp, isNum2_iff]
  · intro h
    unfold checkLiveCore
    simp only [String.toList] at h
    simp [h]
  · unfold checkLiveHandler
    simp [hval]

/-- Witness for C1 at a markup without any embedded state document. -/
theorem claim_C1_witness :
    jsTrim "alice" ≠ "" ∧
    (((checkLiveCore "alice" "no-state-here").live = true ↔ liveInMarkup "no-state-here") ∧
     (extract0 ("no-state-here" : String).toList = none →
       checkLiveCore "alice" "no-state-here"
         = { username := "alice", live := false, status := none, roomId := none }) ∧
     (checkLiveHandler (some "alice") (FetchSim.page "no-state-here")).1
       = CheckLiveOut.ok (checkLiveCore (jsTrim (stripAt "alice")) "no-state-here")) :=
  ⟨by decide, claim_C1 "alice" "no-state-here" "alice" (by decide)⟩

/-- Counterexample to C8: the inputs at-Foo-space, foo and FOO do share the
cache key, but the output username field is case-preserving, so the query
results for at-Foo-space and for foo carry different username fields (Foo
versus foo), contradicting the claim that all three yield the same output
username field. -/
theorem claim_C8_counterexample :
    (userInfoHandler [] "GET" (some "@Foo ") 0 (FetchSim2.resp true 200 "")).1
      = UserInfoOut.ok (bareUser "Foo") false ∧
    (userInfoHandler [] "GET" (some "foo") 0 (FetchSim2.resp true 200 "")).1
      = UserInfoOut.ok (bareUser "foo") false ∧
    (bareUser "Foo").username ≠ (bareUser "foo").username :=
  ⟨rfl, rfl, by decide⟩

/-- C8 amended: normalization strips one leading at-sign and trims, and the
cache key is additionally lowercased, so at-Foo-space, foo and FOO all map
to the cache key foo and each result is stored under that one key; the
output username field, however, preserves the case of the trimmed,
at-stripped input (Foo, foo, FOO), the three being equal only under
case-insensitive comparison. -/
theorem claim_C8_amended :
    lowerStr (stripAt (jsTrim "@Foo ")) = "foo" ∧
    lowerStr (stripAt (jsTrim "foo")) = "foo" ∧
    lowerStr (stripAt (jsTrim "FOO")) = "foo" ∧
    (userInfoHandler [] "GET" (some "@Foo ") 0 (FetchSim2.resp true 200 "")).2.1
      = [("foo", { ts := 0, data := bareUser "Foo" })] ∧
    (userInfoHandler [] "GET" (some "foo") 0 (FetchSim2.resp true 200 "")).2.1
      = [("foo", { ts := 0, data := bareUser "foo" })] ∧
    (userInfoHandler [] "GET" (some "FOO") 0 (FetchSim2.resp true 200 "")).2.1
      = [("foo", { ts := 0, data := bareUser "FOO" })] ∧
    lowerStr "Foo" = lowerStr "foo" ∧ lowerStr "FOO" = lowerStr "foo" :=
  ⟨rfl, rfl, rfl, rfl, rfl, rfl, rfl, rfl⟩

/-- Counterexample to C5: the live-status route keeps no cache and performs
the upstream fetch on every invocation; being stateless, a second identical
query for the same account immediately after a first one fetches again
instead of being served from a cache, contradicting the claim for this
status query. -/
theorem claim_C5_counterexample :
    (checkLiveHandler (some "alice") (FetchSim.page "<p>")).2 = true ∧
    (checkLiveHandler (some "alice") (FetchSim.page "<p>")).1
      = CheckLiveOut.ok (checkLiveCore "alice" "<p>") :=
  ⟨rfl, rfl⟩

/-- C5 amended: the user-info status query consults the TTL cache under the
normalized account key and serves a fresh hit without fetching; on a miss
or a stale entry it fetches upstream, stores the resolved result under the
key, and returns it, so a second query for the same account within the TTL
window is cache-served with no further fetch; the live-status query, by
contrast, performs the upstream fetch on every valid request. -/
theorem claim_C5_amended
    (c1 c2 c3 : List (String × CacheEntry UserInfoData))
    (uname html u2 h2 : String) (now nowQ now2 : Int)
    (e e3 : CacheEntry UserInfoData) (f2 : FetchSim2)
    (hu : stripAt (jsTrim uname) ≠ "")
    (hhit : mapGet c1 (lowerStr (stripAt (jsTrim uname))) = some e)
    (hage : now - e.ts < TTL_MS)
    (hmiss : mapGet c2 (lowerStr (stripAt (jsTrim uname))) = none)
    (hstale : mapGet c3 (lowerStr (stripAt (jsTrim uname))) = some e3)
    (hold : nowQ - e3.ts ≥ TTL_MS)
    (h2nd : now2 - nowQ < TTL_MS)
    (hu2 : jsTrim u2 ≠ "") :
    userInfoHandler c1 "GET" (some uname) now f2
      = (UserInfoOut.ok e.data true, c1, false) ∧
    userInfoHandler c2 "GET" (some uname) nowQ (FetchSim2.resp true 200 html)
      = (UserInfoOut.ok (userInfoDataOf (stripAt (jsTrim uname)) html) false,
         mapSet c2 (lowerStr (stripAt (jsTrim uname)))
           { ts := nowQ, data := userInfoDataOf (stripAt (jsTrim uname)) html }, true) ∧
    userInfoHandler c3 "GET" (some uname) nowQ (FetchSim2.resp true 200 html)
      = (UserInfoOut.ok (userInfoDataOf (stripAt (jsTrim uname)) html) false,
         mapSet c3 (lowerStr (stripAt (jsTrim uname)))
           { ts := nowQ, data := userInfoDataOf (stripAt (jsTrim uname)) html }, true) ∧
    userInfoHandler
        (mapSet c2 (lowerStr (stripAt (jsTrim uname)))
          { ts := nowQ, data := userInfoDataOf (stripAt (jsTrim uname)) html })
        "GET" (some uname) now2 f2
      = (UserInfoOut.ok (userInfoDataOf (stripAt (jsTrim uname)) html) true,
         mapSet c2 (lowerStr (stripAt (jsTrim uname)))
           { ts := nowQ, data := userInfoDataOf (stripAt (jsTrim uname)) html }, false) ∧
    (checkLiveHandler (some u2) (FetchSim.page h2)).2 = true := by
  refine ⟨?_, ?_, ?_, ?_, ?_⟩
  · simp [userInfoHandler, hu, hhit, hage]
  · simp [userInfoHandler, hu, hmiss, userInfoFetch]
  · have hno : ¬ (nowQ - e3.ts < TTL_MS) := by omega
    simp [userInfoHandler, hu, hstale, hno, userInfoFetch]
  · simp [userInfoHandler, hu, mapGet_mapSet_self, h2nd]
  · simp [checkLiveHandler, hu2]

/-- Witness for C5 at a concrete account, cache contents and clock
readings; the fetch outcome of the cache-served queries is a network
failure, showing it is not consulted. -/
theorem claim_C5_witness :
    userInfoHandler [("foo", { ts := 0, data := bareUser "foo" })]
        "GET" (some "foo") 1 (FetchSim2.throws "net down")
      = (UserInfoOut.ok (bareUser "foo") true,
         [("foo", { ts := 0, data := bareUser "foo" })], false) ∧
    userInfoHandler [] "GET" (some "foo") 10 (FetchSim2.resp true 200 "")
      = (UserInfoOut.ok (userInfoDataOf (stripAt (jsTrim "foo")) "") false,
         mapSet [] (lowerStr (stripAt (jsTrim "foo")))
           { ts := 10, data := userInfoDataOf (stripAt (jsTrim "foo")) "" }, true) ∧
    userInfoHandler [("foo", { ts := -TTL_MS, data := bareUser "foo" })]
        "GET" (some "foo") 10 (FetchSim2.resp true 200 "")
      = (UserInfoOut.ok (userInfoDataOf (stripAt (jsTrim "foo")) "") false,
         mapSet [("foo", { ts := -TTL_MS, data := bareUser "foo" })]
           (lowerStr (stripAt (jsTrim "foo")))
           { ts := 10, data := userInfoDataOf (stripAt (jsTrim "foo")) "" }, true) ∧
    userInfoHandler
        (mapSet [] (lowerStr (stripAt (jsTrim "foo")))
          { ts := 10, data := userInfoDataOf (stripAt (jsTrim "foo")) "" })
        "GET" (some "foo") 11 (FetchSim2.throws "net down")
      = (UserInfoOut.ok (userInfoDataOf (stripAt (jsTrim "foo")) "") true,
         mapSet [] (lowerStr (stripAt (jsTrim "foo")))
           { ts := 10, data := userInfoDataOf (stripAt (jsTrim "foo")) "" }, false) ∧
    (checkLiveHandler (some "alice") (FetchSim.page "x")).2 = true :=
  claim_C5_amended
    [("foo", { ts := 0, data := bareUser "foo" })] []
    [("foo", { ts := -TTL_MS, data := bareUser "foo" })]
    "foo" "" "alice" "x" 1 10 11
    { ts := 0, data := bareUser "foo" }
    { ts := -TTL_MS, data := bareUser "foo" }
    (FetchSim2.throws "net down")
    (by decide) rfl (by decide) rfl rfl (by decide) (by decide) (by decide)

theorem record_no_remove (env : RecordEnv) (p : String) :
    Effect.removeFile p ∉ (record env).2 := by
  simp only [record]
  repeat' split
  all_goals simp

theorem record_audio_inv (env : RecordEnv) (m : String) :
    (record env).1 = RecordOut.audioFailed m →
    ffmpegFails env.ffDownload = none ∧
    ∃ flv vp, Effect.ffmpegRun (ffmpegArgsDownload flv vp) ∈ (record env).2 := by
  simp only [record]
  repeat' split
  all_goals intro h
  all_goals first
    | (simp at h; done)
    | (exact ⟨by assumption,
        _, _, List.mem_append_left _ (List.mem_append_right _ (List.mem_cons_self _ _))⟩)

/-- C6: no run of the capture route ever deletes a file, so the produced
video is never rolled back; when the audio-extraction stage fails the
download stage had succeeded, the effect trace still contains the download
invocation that produced the video, and the response is the discriminable
audio-failure outcome, distinct from success and from a download failure. -/
theorem claim_C6 (env : RecordEnv) (m : String)
    (hAudio : (record env).1 = RecordOut.audioFailed m) :
    (∀ env2 : RecordEnv, ∀ p, Effect.removeFile p ∉ (record env2).2) ∧
    ffmpegFails env.ffDownload = none ∧
    (∃ flv vp, Effect.ffmpegRun (ffmpegArgsDownload flv vp) ∈ (record env).2) ∧
    (∀ f v a, (record env).1 ≠ RecordOut.success f v a) ∧
    (∀ m2, (record env).1 ≠ RecordOut.downloadFailed m2) := by
  obtain ⟨hdl, hmem⟩ := record_audio_inv env m hAudio
  refine ⟨fun env2 p => record_no_remove env2 p, hdl, hmem, ?_, ?_⟩
  · intro f v a
    rw [hAudio]
    simp
  · intro m2
    rw [hAudio]
    simp

/-- Witness for C6: the concrete capture run whose audio stage exits 1. -/
theorem claim_C6_witness :
    (record { recordEnvC with ffAudio := FfmpegOutcome.exit 1 }).1
      = RecordOut.audioFailed "ffmpeg exited with code 1" ∧
    ((∀ env2 : RecordEnv, ∀ p, Effect.removeFile p ∉ (record env2).2) ∧
     ffmpegFails { recordEnvC with ffAudio := FfmpegOutcome.exit 1 }.ffDownload = none ∧
     (∃ flv vp, Effect.ffmpegRun (ffmpegArgsDownload flv vp)
        ∈ (record { recordEnvC with ffAudio := FfmpegOutcome.exit 1 }).2) ∧
     (∀ f v a, (record { recordEnvC with ffAudio := FfmpegOutcome.exit 1 }).1
        ≠ RecordOut.success f v a) ∧
     (∀ m2, (record { recordEnvC with ffAudio := FfmpegOutcome.exit 1 }).1
        ≠ RecordOut.downloadFailed m2)) :=
  ⟨rfl, claim_C6 { recordEnvC with ffAudio := FfmpegOutcome.exit 1 }
    "ffmpeg exited with code 1" rfl⟩

theorem dropLit_append (p l : List Char) : dropLit p (p ++ l) = some l := by
  induction p with
  | nil => rfl
  | cons c cs ih => simp [dropLit, ih]

theorem startsW_append_self (p l : List Char) : startsW p (p ++ l) = true := by
  simp [startsW, dropLit_append]

theorem append_head (pre m : String) (c : Char) (l : List Char)
    (hpre : pre.data = c :: l) : (pre ++ m).data = c :: (l ++ m.data) := by
  rw [String.data_append, hpre]
  rfl

theorem append_ne (pre m t : String) (c d : Char) (l l2 : List Char)
    (hpre : pre.data = c :: l) (ht : t.data = d :: l2) (hcd : c ≠ d) :
    pre ++ m ≠ t := by
  intro h
  have h2 := congrArg String.data h
  rw [append_head pre m c l hpre, ht] at h2
  injection h2 with h3 _
  exact hcd h3

theorem startsW_cons_ne (c d : Char) (ps cs : List Char) (hcd : ¬ (d = c)) :
    startsW (c :: ps) (d :: cs) = false := by
  simp [startsW, dropLit, hcd]

theorem stageOfReason_download (m : String) :
    stageOfReason ("Download failed: " ++ m) = "download" := by
  unfold stageOfReason
  rw [if_neg (append_ne _ m _ 'D' 'S' "ownload failed: ".data "IGI_STATE missing".data
    rfl rfl (by decide))]
  rw [if_neg (append_ne _ m _ 'D' 'F' "ownload failed: ".data
    "ailed to parse SIGI_STATE".data rfl rfl (by decide))]
  rw [if_neg (append_ne _ m _ 'D' 'N' "ownload failed: ".data
    "o stream data found".data rfl rfl (by decide))]
  rw [if_neg (append_ne _ m _ 'D' 'F' "ownload failed: ".data
    "ailed to parse stream data".data rfl rfl (by decide))]
  rw [if_neg (append_ne _ m _ 'D' 'N' "ownload failed: ".data
    "o FLV stream available".data rfl rfl (by decide))]
  have hsw : startsW ("Download failed: ".toList) (("Download failed: " ++ m).toList)
      = true := by
    have h : ("Download failed: " ++ m).toList = "Download failed: ".toList ++ m.toList := by
      simp only [String.toList, String.data_append]
    rw [h]
    exact startsW_append_self _ _
  rw [if_pos hsw]

theorem stageOfReason_audio (m : String) :
    stageOfReason ("Audio extraction failed: " ++ m) = "audio" := by
  unfold stageOfReason
  rw [if_neg (append_ne _ m _ 'A' 'S' "udio extraction failed: ".data
    "IGI_STATE missing".data rfl rfl (by decide))]
  rw [if_neg (append_ne _ m _ 'A' 'F' "udio extraction failed: ".data
    "ailed to parse SIGI_STATE".data rfl rfl (by decide))]
  rw [if_neg (append_ne _ m _ 'A' 'N' "udio extraction failed: ".data
    "o stream data found".data rfl rfl (by decide))]
  rw [if_neg (append_ne _ m _ 'A' 'F' "udio extraction failed: ".data
    "ailed to parse stream data".data rfl rfl (by decide))]
  rw [if_neg (append_ne _ m _ 'A' 'N' "udio extraction failed: ".data
    "o FLV stream available".data rfl rfl (by decide))]
  have hA : ("Audio extraction failed: " ++ m).toList
      = 'A' :: ("udio extraction failed: ".data ++ m.data) := by
    simp only [String.toList]
    exact append_head _ m 'A' "udio extraction failed: ".data rfl
  have hno : ¬ (startsW ("Download failed: ".toList)
      (("Audio extraction failed: " ++ m).toList) = true) := by
    rw [hA, show ("Download failed: ".toList) = 'D' :: "ownload failed: ".data from rfl]
    rw [startsW_cons_ne 'D' 'A' _ _ (by decide)]
    simp
  rw [if_neg hno]
  have hsw : startsW ("Audio extraction failed: ".toList)
      (("Audio extraction failed: " ++ m).toList) = true := by
    have h : ("Audio extraction failed: " ++ m).toList
        = "Audio extraction failed: ".toList ++ m.toList := by
      simp only [String.toList, String.data_append]
    rw [h]
    exact startsW_append_self _ _
  rw [if_pos hsw]

theorem record_success_inv (env : RecordEnv) (f : Json) (v a : String) :
    (record env).1 = RecordOut.success f v a →
    ∃ uname html cap data raw parsed streams q,
      env.usernameQ = some uname ∧ env.fetch = FetchSim.page html ∧
      extract0 html.toList = some cap ∧ cap ≠ [] ∧ jparseL cap = some data ∧
      jsPath data streamDataPath = some raw ∧ truthy raw = true ∧
      jsonParseCoerced raw = some parsed ∧ jsGet parsed "data" = some streams ∧
      selectStream streams = some (q, f) ∧
      v = env.cwd ++ "/recordings" ++ "/" ++ jsTrim (stripAt uname) ++ "_"
            ++ toString env.now ++ ".mp4" ∧
      a = env.cwd ++ "/audio" ++ "/" ++ jsTrim (stripAt uname) ++ "_"
            ++ toString env.now ++ ".wav" := by
  simp only [record]
  repeat' split
  all_goals intro h
  all_goals first
    | (simp at h; done)
    | (obtain ⟨hf, hv, ha⟩ : _ ∧ _ ∧ _ := by simpa using h
       subst hf
       subst hv
       subst ha
       exact ⟨_, _, _, _, _, _, _, _, ‹_›, ‹_›, ‹_›, ‹_›, ‹_›, ‹_›, ‹_›, ‹_›, ‹_›, ‹_›,
         rfl, rfl⟩)

theorem record_download_inv (env : RecordEnv) (m : String) :
    (record env).1 = RecordOut.downloadFailed m → ffmpegFails env.ffDownload = some m := by
  simp only [record]
  repeat' split
  all_goals intro h
  all_goals first
    | (simp at h; done)
    | (simp at h; subst h; assumption)

theorem record_audio_cause (env : RecordEnv) (m : String) :
    (record env).1 = RecordOut.audioFailed m → ffmpegFails env.ffAudio = some m := by
  simp only [record]
  repeat' split
  all_goals intro h
  all_goals first
    | (simp at h; done)
    | (simp at h; subst h; assumption)

theorem record_thrown_inv (env : RecordEnv) (m : String) :
    (record env).1 = RecordOut.thrown m →
    env.fetch = FetchSim.throws m ∨ m = "TypeError" := by
  simp only [record]
  repeat' split
  all_goals intro h
  all_goals first
    | (simp at h; done)
    | (simp at h; subst h; first | (exact Or.inl (by assumption)) | (exact Or.inr rfl))

/-- Counterexample to C7, falsifying both halves of the claim: in the
concrete successful capture the selected tier is uhd, yet the success
response carries only the message, the stream URL, the video path and the
audio path — no field equals the selected tier name and none is keyed tier
or quality; and a capture whose upstream fetch throws is answered with the
bare underlying error message (here ECONNRESET), a reason string that
names no stage, against the claim's fetch entry in the stage list. -/
theorem claim_C7_counterexample :
    (record recordEnvC).1
      = RecordOut.success (Json.str "u") "./recordings/alice_5.mp4" "./audio/alice_5.wav" ∧
    jparse recordNested = some (Json.obj [("data", streamsC)]) ∧
    selectStream streamsC = some ("uhd", Json.str "u") ∧
    (∀ kv ∈ recordFields (RecordOut.success (Json.str "u") "./recordings/alice_5.mp4"
        "./audio/alice_5.wav"), kv.2 ≠ Json.str "uhd" ∧ kv.1 ≠ "tier" ∧ kv.1 ≠ "quality") ∧
    (record { recordEnvC with fetch := FetchSim.throws "ECONNRESET" }).1
      = RecordOut.thrown "ECONNRESET" ∧
    recordFields (RecordOut.thrown "ECONNRESET") = [("error", Json.str "ECONNRESET")] ∧
    stageOfReason "ECONNRESET" = "other" := by
  refine ⟨rfl, rfl, rfl, ?_, rfl, rfl, rfl⟩
  intro kv hkv
  simp only [recordFields, List.mem_cons, List.not_mem_nil, or_false] at hkv
  rcases hkv with h | h | h | h <;> subst h <;>
    exact ⟨by intro hj; injection hj with hs; exact absurd hs (by decide),
      by decide, by decide⟩

/-- C7 amended, settled over every run of the capture route: a successful
run answers with the message, the selected stream URL, the produced video
path and the produced audio path (but not the selected tier name), the URL
being the one quality selection returned on the manifest resolved from the
fetched page and the paths following the deterministic layout; every
failing run answers with a single reason string, and that reason names the
failed stage for the extraction, resolve, selection, download and
audio-extraction exits (the last two tied to the stage that actually
failed), while a thrown failure — an upstream fetch error or the manifest
type error — carries only the bare error message. -/
theorem claim_C7_amended (env : RecordEnv) :
    (∀ f v a, (record env).1 = RecordOut.success f v a →
      recordFields (record env).1
        = [("message", Json.str "Recording complete"), ("flvUrl", f),
           ("videoPath", Json.str v), ("audioPath", Json.str a)] ∧
      (∃ uname html cap data raw parsed streams q,
        env.usernameQ = some uname ∧ env.fetch = FetchSim.page html ∧
        extract0 html.toList = some cap ∧ cap ≠ [] ∧ jparseL cap = some data ∧
        jsPath data streamDataPath = some raw ∧ truthy raw = true ∧
        jsonParseCoerced raw = some parsed ∧ jsGet parsed "data" = some streams ∧
        selectStream streams = some (q, f) ∧
        v = env.cwd ++ "/recordings" ++ "/" ++ jsTrim (stripAt uname) ++ "_"
              ++ toString env.now ++ ".mp4" ∧
        a = env.cwd ++ "/audio" ++ "/" ++ jsTrim (stripAt uname) ++ "_"
              ++ toString env.now ++ ".wav")) ∧
    ((record env).1 = RecordOut.sigiMissing →
      recordFields (record env).1 = [("error", Json.str "SIGI_STATE missing")] ∧
      stageOfReason "SIGI_STATE missing" = "extract") ∧
    ((record env).1 = RecordOut.sigiParseFailed →
      recordFields (record env).1 = [("error", Json.str "Failed to parse SIGI_STATE")] ∧
      stageOfReason "Failed to parse SIGI_STATE" = "resolve") ∧
    ((record env).1 = RecordOut.noStreamData →
      recordFields (record env).1 = [("error", Json.str "No stream data found")] ∧
      stageOfReason "No stream data found" = "resolve") ∧
    ((record env).1 = RecordOut.streamParseFailed →
      recordFields (record env).1 = [("error", Json.str "Failed to parse stream data")] ∧
      stageOfReason "Failed to parse stream data" = "resolve") ∧
    ((record env).1 = RecordOut.noFlv →
      recordFields (record env).1 = [("error", Json.str "No FLV stream available")] ∧
      stageOfReason "No FLV stream available" = "select") ∧
    (∀ m, (record env).1 = RecordOut.downloadFailed m →
      ffmpegFails env.ffDownload = some m ∧
      recordFields (record env).1 = [("error", Json.str ("Download failed: " ++ m))] ∧
      stageOfReason ("Download failed: " ++ m) = "download") ∧
    (∀ m, (record env).1 = RecordOut.audioFailed m →
      ffmpegFails env.ffDownload = none ∧ ffmpegFails env.ffAudio = some m ∧
      recordFields (record env).1 = [("error", Json.str ("Audio extraction failed: " ++ m))] ∧
      stageOfReason ("Audio extraction failed: " ++ m) = "audio") ∧
    (∀ m, (record env).1 = RecordOut.thrown m →
      recordFields (record env).1 = [("error", Json.str m)] ∧
      (env.fetch = FetchSim.throws m ∨ m = "TypeError")) := by
  refine ⟨?_, ?_, ?_, ?_, ?_, ?_, ?_, ?_, ?_⟩
  · intro f v a hsucc
    exact ⟨by rw [hsucc]; rfl, record_success_inv env f v a hsucc⟩
  · intro h
    exact ⟨by rw [h]; rfl, rfl⟩
  · intro h
    exact ⟨by rw [h]; rfl, rfl⟩
  · intro h
    exact ⟨by rw [h]; rfl, rfl⟩
  · intro h
    exact ⟨by rw [h]; rfl, rfl⟩
  · intro h
    exact ⟨by rw [h]; rfl, rfl⟩
  · intro m h
    exact ⟨record_download_inv env m h, by rw [h]; rfl, stageOfReason_download m⟩
  · intro m h
    exact ⟨(record_audio_inv env m h).1, record_audio_cause env m h,
      by rw [h]; rfl, stageOfReason_audio m⟩
  · intro m h
    exact ⟨by rw [h]; rfl, record_thrown_inv env m h⟩

/-- Witness for C7 at the concrete successful capture run and at the same
run with a throwing upstream fetch. -/
theorem claim_C7_witness :
    (recordFields (record recordEnvC).1
      = [("message", Json.str "Recording complete"), ("flvUrl", Json.str "u"),
         ("videoPath", Json.str "./recordings/alice_5.mp4"),
         ("audioPath", Json.str "./audio/alice_5.wav")] ∧
     (∃ uname html cap data raw parsed streams q,
       recordEnvC.usernameQ = some uname ∧ recordEnvC.fetch = FetchSim.page html ∧
       extract0 html.toList = some cap ∧ cap ≠ [] ∧ jparseL cap = some data ∧
       jsPath data streamDataPath = some raw ∧ truthy raw = true ∧
       jsonParseCoerced raw = some parsed ∧ jsGet parsed "data" = some streams ∧
       selectStream streams = some (q, Json.str "u") ∧
       "./recordings/alice_5.mp4" = recordEnvC.cwd ++ "/recordings" ++ "/"
             ++ jsTrim (stripAt uname) ++ "_" ++ toString recordEnvC.now ++ ".mp4" ∧
       "./audio/alice_5.wav" = recordEnvC.cwd ++ "/audio" ++ "/"
             ++ jsTrim (stripAt uname) ++ "_" ++ toString recordEnvC.now ++ ".wav")) ∧
    (recordFields (record { recordEnvC with fetch := FetchSim.throws "ECONNRESET" }).1
      = [("error", Json.str "ECONNRESET")] ∧
     (({ recordEnvC with fetch := FetchSim.throws "ECONNRESET" } : RecordEnv).fetch
        = FetchSim.throws "ECONNRESET" ∨ ("ECONNRESET" : String) = "TypeError")) :=
  ⟨(claim_C7_amended recordEnvC).1 (Json.str "u") "./recordings/alice_5.mp4"
     "./audio/alice_5.wav" rfl,
   (claim_C7_amended
       { recordEnvC with fetch := FetchSim.throws "ECONNRESET" }).2.2.2.2.2.2.2.2
     "ECONNRESET" rfl⟩

theorem wrapped_toList (content : String) :
    (wrappedMarkup content).toList = jsonTypeLit ++ (content.toList ++ closeLit) := by
  simp only [wrappedMarkup, String.toList, String.data_append, jsonTypeLit, closeLit]
  simp [List.append_assoc]

theorem jsonTypeLit_decomp : jsonTypeLit = sigiLit ++ (typeTailNoGt ++ ['>']) := rfl

theorem dropWhile_append_all (p : Char → Bool) (A B : List Char)
    (h : ∀ a ∈ A, p a = true) : List.dropWhile p (A ++ B) = List.dropWhile p B := by
  induction A with
  | nil => rfl
  | cons a t ih =>
    rw [List.cons_append, List.dropWhile_cons, if_pos (h a (by simp))]
    exact ih (fun x hx => h x (by simp [hx]))

theorem lazyCapNoNl_none (cs : List Char) (hnl : '\n' ∈ cs) (hlt : '<' ∉ cs) :
    lazyCapNoNl (cs ++ closeLit) = none := by
  induction cs with
  | nil => simp at hnl
  | cons c t ih =>
    have hc : ¬ (c = '<') := by
      intro hc
      exact hlt (by simp [hc])
    have hsw : startsW closeLit (c :: (t ++ closeLit)) = false := by
      rw [show closeLit = '<' :: "/script>".data from rfl]
      exact startsW_cons_ne '<' c _ _ hc
    rw [List.cons_append]
    unfold lazyCapNoNl
    rw [if_neg (by rw [hsw]; simp)]
    by_cases hcn : c = '\n' ∨ c = '\r'
    · rw [if_pos hcn]
    · rw [if_neg hcn]
      have hnl' : '\n' ∈ t := by
        rcases List.mem_cons.mp hnl with h | h
        · exact absurd (Or.inl h.symm) hcn
        · exact h
      rw [ih hnl' (fun hx => hlt (List.mem_cons_of_mem c hx))]

theorem lazyCapAll_append (cs : List Char) (hlt : '<' ∉ cs) :
    lazyCapAll (cs ++ closeLit) = some cs := by
  induction cs with
  | nil => rfl
  | cons c t ih =>
    have hc : ¬ (c = '<') := by
      intro hc
      exact hlt (by simp [hc])
    have hsw : startsW closeLit (c :: (t ++ closeLit)) = false := by
      rw [show closeLit = '<' :: "/script>".data from rfl]
      exact startsW_cons_ne '<' c _ _ hc
    rw [List.cons_append]
    unfold lazyCapAll
    rw [if_neg (by rw [hsw]; simp)]
    rw [ih (fun hx => hlt (List.mem_cons_of_mem c hx))]

theorem scanR_head_some (attempt : List Char → Option (List Char)) (l r : List Char)
    (h : attempt l = some r) : scanR attempt l = some r := by
  cases l with
  | nil => simpa [scanR] using h
  | cons c t => simp [scanR, h]

theorem scanR_cons_none (attempt : List Char → Option (List Char)) (c : Char)
    (t : List Char) (h : attempt (c :: t) = none) :
    scanR attempt (c :: t) = scanR attempt t := by
  simp [scanR, h]

theorem matchAt0_cons_ne (c : Char) (l : List Char) (hc : ¬ (c = '<')) :
    matchAt0 (c :: l) = none := by
  unfold matchAt0
  rw [show sigiLit = '<' :: "script id=\"SIGI_STATE\"".data from rfl]
  simp [dropLit, hc]

theorem scanR0_append_close (cs : List Char) (hlt : '<' ∉ cs) :
    scanR matchAt0 (cs ++ closeLit) = none := by
  induction cs with
  | nil => rfl
  | cons c t ih =>
    rw [List.cons_append,
      scanR_cons_none _ _ _ (matchAt0_cons_ne c _ (fun h => hlt (by simp [h])))]
    exact ih (fun h => hlt (List.mem_cons_of_mem c h))

theorem matchAt0_append_sigi (r : List Char) :
    matchAt0 (sigiLit ++ r)
      = (match List.dropWhile (fun ch => ch != '>') r with
         | '>' :: r2 => lazyCapNoNl r2
         | _ => none) := by
  unfold matchAt0
  rw [dropLit_append]

theorem matchAt0_wrapped_none (c : List Char) (hnl : '\n' ∈ c) (hlt : '<' ∉ c) :
    matchAt0 (jsonTypeLit ++ (c ++ closeLit)) = none := by
  rw [jsonTypeLit_decomp, List.append_assoc, matchAt0_append_sigi, List.append_assoc,
    show (['>'] : List Char) ++ (c ++ closeLit) = '>' :: (c ++ closeLit) from rfl,
    dropWhile_append_all _ typeTailNoGt _ (by decide), List.dropWhile_cons,
    if_neg (by decide)]
  show lazyCapNoNl (c ++ closeLit) = none
  exact lazyCapNoNl_none c hnl hlt

theorem extract0_wrapped_none (content : String) (hnl : '\n' ∈ content.toList)
    (hlt : '<' ∉ content.toList) :
    extract0 (wrappedMarkup content).toList = none := by
  rw [wrapped_toList]
  unfold extract0
  rw [show jsonTypeLit ++ (content.toList ++ closeLit)
      = '<' :: (jtTail ++ (content.toList ++ closeLit)) from rfl]
  rw [scanR_cons_none _ _ _ (by
    rw [show ('<' :: (jtTail ++ (content.toList ++ closeLit)))
        = jsonTypeLit ++ (content.toList ++ closeLit) from rfl]
    exact matchAt0_wrapped_none content.toList hnl hlt)]
  rw [← List.append_assoc]
  exact scanR0_append_close (jtTail ++ content.toList)
    (by
      intro hmem
      rcases List.mem_append.mp hmem with h | h
      · exact absurd h (by decide)
      · exact hlt h)

theorem extract1_wrapped (content : String) (hlt : '<' ∉ content.toList) :
    extract1 (wrappedMarkup content).toList = some content.toList := by
  rw [wrapped_toList]
  unfold extract1
  apply scanR_head_some
  unfold matchAt1
  rw [dropLit_append]
  exact lazyCapAll_append content.toList hlt

/-- C10: the live-status route's pattern refuses script content holding a
line terminator, so for a markup whose embedded state document spans
multiple lines (and, as JSON text outside string escapes, holds no lt sign)
the live-status extraction yields nothing and the status query answers
not-live with null status and roomId, while the user-info route's pattern
captures exactly that content and hands it to the parser: the two routes'
extractors are not equivalent functions of the markup. -/
theorem claim_C10 (content user : String)
    (hnl : '\n' ∈ content.toList) (hlt : '<' ∉ content.toList) :
    extract0 (wrappedMarkup content).toList = none ∧
    extract1 (wrappedMarkup content).toList = some content.toList ∧
    checkLiveCore user (wrappedMarkup content)
      = { username := user, live := false, status := none, roomId := none } ∧
    userInfoParsed (wrappedMarkup content) = jparseL content.toList := by
  have h0 := extract0_wrapped_none content hnl hlt
  have h1 := extract1_wrapped content hlt
  refine ⟨h0, h1, ?_, ?_⟩
  · unfold checkLiveCore
    simp only [String.toList] at h0
    simp [h0]
  · unfold userInfoParsed
    rw [h1]
    have hne : content.toList.isEmpty = false := by
      cases hc : content.toList with
      | nil => rw [hc] at hnl; simp at hnl
      | cons a b => rfl
    show (if content.toList.isEmpty = true then none else jparseL content.toList)
      = jparseL content.toList
    rw [if_neg (by rw [hne]; simp)]

/-- Witness for C10 at a concrete two-line state document that the
user-info route parses while the live-status route reports not-live. -/
theorem claim_C10_witness :
    ('\n' ∈ ("\x7b\"a\":\n2\x7d" : String).toList ∧
     '<' ∉ ("\x7b\"a\":\n2\x7d" : String).toList) ∧
    (extract0 (wrappedMarkup "\x7b\"a\":\n2\x7d").toList = none ∧
     extract1 (wrappedMarkup "\x7b\"a\":\n2\x7d").toList
       = some ("\x7b\"a\":\n2\x7d" : String).toList ∧
     checkLiveCore "alice" (wrappedMarkup "\x7b\"a\":\n2\x7d")
       = { username := "alice", live := false, status := none, roomId := none } ∧
     userInfoParsed (wrappedMarkup "\x7b\"a\":\n2\x7d")
       = jparseL ("\x7b\"a\":\n2\x7d" : String).toList) :=
  ⟨⟨by decide, by decide⟩, claim_C10 "\x7b\"a\":\n2\x7d" "alice" (by decide) (by decide)⟩

end Sec
